import Mathlib

/-!
Verification of the HID tool (`src/main.rs`): a shallow embedding of the
device-acquisition retry loop (`open_device_with_retry`), the fixed-size
output-report construction, hex payload decoding, the input-report read
loop (`read_input_reports`), and the overall flow of `main` after argument
parsing.  Machine integers (`u16`, byte values, `u32`/`u64` counters) are
modelled as `Nat`; all operations the claims touch are pure comparisons
and copies, so no overflow is involved.  The HID transport (`hidapi`) is a
collaborator: its behaviour is an explicit environment (`Api`,
write/read result functions) indexed by call number, and the externally
observable actions of the program are recorded in an event trace.
-/

namespace HidTools

/-- Embeds `HID_REPORT_SIZE` from `src/main.rs` line 6. -/
def HID_REPORT_SIZE : Nat := 64

/-- Embeds `VENDOR_PAGE` from `src/main.rs` line 7. -/
def VENDOR_PAGE : Nat := 0xFF42

/-- A device candidate as consumed from `hidapi`'s `device_list()`:
`vendor_id`, `product_id`, `usage_page` and the opaque `path` (modelled
as a `Nat` identifier). -/
structure DeviceInfo where
  vendor_id : Nat
  product_id : Nat
  usage_page : Nat
  path : Nat
  deriving DecidableEq

/-- An open session handle, as returned by `api.open_path`: it wraps the
path it was opened on. -/
structure Device where
  path : Nat
  deriving DecidableEq

/-- The transport environment: what enumeration and open return.  Both
are indexed by the retry-loop attempt number, modelling that the loop
re-enumerates on every attempt and that open outcomes may change between
attempts.  `open_result n p = none` means the open of path `p` at attempt
`n` succeeds; `some e` means it fails with error code `e`. -/
structure Api where
  device_list : Nat → List DeviceInfo
  open_result : Nat → Nat → Option Nat

/-- The full-match predicate of the first scan in `open_device_with_retry`
(`src/main.rs` lines 50-52): vendor id, product id and usage page all
match. -/
def matchesFull (vid pid page : Nat) (d : DeviceInfo) : Bool :=
  d.vendor_id == vid && d.product_id == pid && d.usage_page == page

/-- The fallback-match predicate of the second scan (`src/main.rs` lines
56-57): vendor id and product id match, any usage page. -/
def matchesIds (vid pid : Nat) (d : DeviceInfo) : Bool :=
  d.vendor_id == vid && d.product_id == pid

/-- Candidate selection of `open_device_with_retry` (`src/main.rs` lines
49-58): the first candidate matching vendor/product/usage-page; only when
that scan yields nothing (`or_else`), the first candidate matching
vendor/product alone. -/
def findDevice (devs : List DeviceInfo) (vid pid page : Nat) : Option DeviceInfo :=
  match devs.find? (matchesFull vid pid page) with
  | some d => some d
  | none => devs.find? (matchesIds vid pid)

/-- Externally observable actions of the program, in order of occurrence:
enumeration, an open attempt on a path, the retry back-off sleep (with
its duration in ms), the write call (with the transmitted buffer) and its
reported outcome, and read calls with their outcomes. -/
inductive Event where
  | enumerate : Event
  | openAttempt (path : Nat) : Event
  | sleep (ms : Nat) : Event
  | writeCall (buf : List Nat) : Event
  | writeOk (n : Nat) : Event
  | writeErr (e : Nat) : Event
  | readCall : Event
  | recv (len : Nat) : Event
  | readErr (e : Nat) : Event
  deriving DecidableEq

/-- Outcome of `open_device_with_retry`: a session, the `Device not
found` error, the `Failed to open device after .. retries` error carrying
the last open error, or the (unreachable) `last_error.unwrap()` panic. -/
inductive AcquireResult where
  | ok (d : Device) : AcquireResult
  | deviceNotFound : AcquireResult
  | openFailed (e : Nat) : AcquireResult
  | panicked : AcquireResult
  deriving DecidableEq

def Event.isOpenAttempt : Event → Bool
  | .openAttempt _ => true
  | _ => false

def Event.isSleep : Event → Bool
  | .sleep _ => true
  | _ => false

def Event.isSleepMs (ms : Nat) : Event → Bool
  | .sleep m => m == ms
  | _ => false

def Event.isWriteCall : Event → Bool
  | .writeCall _ => true
  | _ => false

def Event.isReadCall : Event → Bool
  | .readCall => true
  | _ => false

def Event.isRecv : Event → Bool
  | .recv _ => true
  | _ => false

def Event.isReadErr : Event → Bool
  | .readErr _ => true
  | _ => false

/-- Number of open attempts recorded in a trace. -/
def countOpen (tr : List Event) : Nat := tr.countP Event.isOpenAttempt

/-- Number of retry-delay sleeps recorded in a trace. -/
def countSleep (tr : List Event) : Nat := tr.countP Event.isSleep

/-- Number of sleeps of exactly `ms` milliseconds recorded in a trace. -/
def countSleepMs (ms : Nat) (tr : List Event) : Nat := tr.countP (Event.isSleepMs ms)

def countWrite (tr : List Event) : Nat := tr.countP Event.isWriteCall

def countRead (tr : List Event) : Nat := tr.countP Event.isReadCall

def countRecv (tr : List Event) : Nat := tr.countP Event.isRecv

def countReadErr (tr : List Event) : Nat := tr.countP Event.isReadErr

/-- `true` when the trace does not end in a sleep event: the program
never blocks for the retry delay as its last observable action. -/
def noTrailingSleep : List Event → Bool
  | [] => true
  | [ev] => ! ev.isSleep
  | _ :: rest => noTrailingSleep rest

/-- The body of the `for attempt in 0..=max_retries` loop of
`open_device_with_retry` (`src/main.rs` lines 44-79), unrolled on fuel.
Invoked with `fuel = max_retries + 1` and `attempt = 0`, so that fuel
runs out exactly when the Rust loop's range is exhausted.  Each iteration
enumerates, selects a candidate via `findDevice`, and on a found
candidate attempts the open: success returns the session at once; failure
records the error and, when `attempt < max_retries`, sleeps for
`retry_delay_ms` before the next iteration.  No candidate at all returns
`deviceNotFound` at once.  Exhausted fuel returns `openFailed` with the
recorded last error (`last_error.unwrap()`, a panic when `none`). -/
def openGo (api : Api) (vid pid page max_retries retry_delay_ms : Nat) :
    Nat → Nat → Option Nat → AcquireResult × List Event
  | 0, _, last_error =>
    (match last_error with
     | some e => .openFailed e
     | none => .panicked, [])
  | fuel + 1, attempt, _ =>
    match findDevice (api.device_list attempt) vid pid page with
    | none => (.deviceNotFound, [.enumerate])
    | some dinfo =>
      match api.open_result attempt dinfo.path with
      | none => (.ok ⟨dinfo.path⟩, [.enumerate, .openAttempt dinfo.path])
      | some e =>
        if attempt < max_retries then
          ((openGo api vid pid page max_retries retry_delay_ms fuel (attempt + 1) (some e)).1,
            .enumerate :: .openAttempt dinfo.path :: .sleep retry_delay_ms ::
              (openGo api vid pid page max_retries retry_delay_ms fuel (attempt + 1) (some e)).2)
        else
          ((openGo api vid pid page max_retries retry_delay_ms fuel (attempt + 1) (some e)).1,
            .enumerate :: .openAttempt dinfo.path ::
              (openGo api vid pid page max_retries retry_delay_ms fuel (attempt + 1) (some e)).2)

/-- Embeds `open_device_with_retry` (`src/main.rs` lines 44-79): runs the
retry loop from attempt 0 with `last_error = None` and fuel for the
`max_retries + 1` iterations of `0..=max_retries`. -/
def open_device_with_retry (api : Api) (vid pid page max_retries retry_delay_ms : Nat) :
    AcquireResult × List Event :=
  openGo api vid pid page max_retries retry_delay_ms (max_retries + 1) 0 none

/-- Embeds the output-report construction in `main` (`src/main.rs` lines
112-117): a zeroed 64-byte buffer whose first `min (len bytes) 64` bytes
are copied from the payload. -/
def build_output_report (bytes : List Nat) : List Nat :=
  let len := min bytes.length HID_REPORT_SIZE
  bytes.take len ++ List.replicate (HID_REPORT_SIZE - len) 0

/-- Value of one hex digit, as accepted by `hex::decode`. -/
def hexVal (c : Char) : Option Nat :=
  let n := c.toNat
  if 48 ≤ n ∧ n ≤ 57 then some (n - 48)
  else if 97 ≤ n ∧ n ≤ 102 then some (n - 87)
  else if 65 ≤ n ∧ n ≤ 70 then some (n - 55)
  else none

/-- Embeds `hex::decode` (`src/main.rs` line 115) on the payload string:
pairs of hex digits become bytes; an odd-length string or a non-hex
character is a decode error (`none`). -/
def hex_decode : List Char → Option (List Nat)
  | [] => some []
  | [_] => none
  | c1 :: c2 :: rest =>
    match hexVal c1, hexVal c2, hex_decode rest with
    | some hi, some lo, some bs => some ((16 * hi + lo) :: bs)
    | _, _, _ => none

/-- Embeds the `loop` of `read_input_reports` (`src/main.rs` lines
81-95), unrolled on fuel; `reads i` is the outcome of the `i`-th
`device.read` call (`.ok len` or `.error e`).  Each successful read
prints the received report (a `recv` event) and loops; the first failing
read prints the error and breaks.  `none` means the fuel ran out with the
loop still running. -/
def read_input_reports (reads : Nat → Except Nat Nat) : Nat → Nat → Option (List Event)
  | 0, _ => none
  | fuel + 1, i =>
    match reads i with
    | .ok len => (read_input_reports reads fuel (i + 1)).map
        (fun tr => Event.readCall :: Event.recv len :: tr)
    | .error e => some [Event.readCall, Event.readErr e]

/-- Embeds the single-read branches of `main` (`src/main.rs` lines
132-141 and 145-155): one blocking read, whose success or failure is
printed either way. -/
def read_single (reads : Nat → Except Nat Nat) (i : Nat) : List Event :=
  match reads i with
  | .ok len => [Event.readCall, Event.recv len]
  | .error e => [Event.readCall, Event.readErr e]

/-- Embeds the write step of `main` (`src/main.rs` lines 119-126): the
full 64-byte report is passed to `device.write`; success and failure are
both merely printed. -/
def writeEvents (write : List Nat → Except Nat Nat) (report : List Nat) : List Event :=
  match write report with
  | .ok n => [Event.writeCall report, Event.writeOk n]
  | .error e => [Event.writeCall report, Event.writeErr e]

/-- How a run of `main` ends: normally, or with one of the propagated
errors (device acquisition or payload decoding).  Write and read errors
are reported but never propagate, so they do not appear here. -/
inductive MainResult where
  | ok : MainResult
  | deviceNotFound : MainResult
  | openFailed (e : Nat) : MainResult
  | payloadDecodeError : MainResult
  | panicked : MainResult
  deriving DecidableEq

/-- Embeds `main` (`src/main.rs` lines 97-158) after argument parsing and
`HidApi::new`: open the device with retry (propagating its failure); when
a payload string was supplied, hex-decode it (propagating a decode
failure), build and write the 64-byte output report — a write failure is
only reported — and then read (continuously or once) per the
`continuous` flag; with no payload, skip the write and just read.
`write buf` is the outcome of `device.write(buf)`; `reads i` the outcome
of the `i`-th `device.read`; `fuel` bounds the continuous loop, `none`
meaning the loop was still running when fuel ran out. -/
def main_run (api : Api) (vid pid : Nat) (data : Option (List Char))
    (retries retry_delay : Nat) (continuous : Bool)
    (write : List Nat → Except Nat Nat) (reads : Nat → Except Nat Nat)
    (fuel : Nat) : Option (MainResult × List Event) :=
  match open_device_with_retry api vid pid VENDOR_PAGE retries retry_delay with
  | (.deviceNotFound, tr1) => some (.deviceNotFound, tr1)
  | (.openFailed e, tr1) => some (.openFailed e, tr1)
  | (.panicked, tr1) => some (.panicked, tr1)
  | (.ok _, tr1) =>
    match data with
    | some s =>
      match hex_decode s with
      | none => some (.payloadDecodeError, tr1)
      | some bytes =>
        match continuous with
        | true =>
          match read_input_reports reads fuel 0 with
          | some tr2 =>
            some (.ok, tr1 ++ writeEvents write (build_output_report bytes) ++ tr2)
          | none => none
        | false =>
          some (.ok, tr1 ++ writeEvents write (build_output_report bytes) ++ read_single reads 0)
    | none =>
      match continuous with
      | true =>
        match read_input_reports reads fuel 0 with
        | some tr2 => some (.ok, tr1 ++ tr2)
        | none => none
      | false =>
        some (.ok, tr1 ++ read_single reads 0)

/-! ## Trace-count helper lemmas -/

theorem countOpen_nil : countOpen [] = 0 := rfl

theorem countOpen_cons (ev : Event) (tr : List Event) :
    countOpen (ev :: tr) = countOpen tr + (if ev.isOpenAttempt then 1 else 0) :=
  List.countP_cons _ _ _

theorem countSleep_nil : countSleep [] = 0 := rfl

theorem countSleep_cons (ev : Event) (tr : List Event) :
    countSleep (ev :: tr) = countSleep tr + (if ev.isSleep then 1 else 0) :=
  List.countP_cons _ _ _

theorem countSleepMs_nil (ms : Nat) : countSleepMs ms [] = 0 := rfl

theorem countSleepMs_cons (ms : Nat) (ev : Event) (tr : List Event) :
    countSleepMs ms (ev :: tr) = countSleepMs ms tr + (if ev.isSleepMs ms then 1 else 0) :=
  List.countP_cons _ _ _

theorem countWrite_cons (ev : Event) (tr : List Event) :
    countWrite (ev :: tr) = countWrite tr + (if ev.isWriteCall then 1 else 0) :=
  List.countP_cons _ _ _

theorem countRead_cons (ev : Event) (tr : List Event) :
    countRead (ev :: tr) = countRead tr + (if ev.isReadCall then 1 else 0) :=
  List.countP_cons _ _ _

theorem countRecv_cons (ev : Event) (tr : List Event) :
    countRecv (ev :: tr) = countRecv tr + (if ev.isRecv then 1 else 0) :=
  List.countP_cons _ _ _

theorem countReadErr_cons (ev : Event) (tr : List Event) :
    countReadErr (ev :: tr) = countReadErr tr + (if ev.isReadErr then 1 else 0) :=
  List.countP_cons _ _ _

/-! ## Candidate-selection lemmas -/

/-- A device rejected by the fallback scan is also rejected by the full
scan: the full predicate is the fallback predicate conjoined with the
usage-page test. -/
theorem matchesFull_eq_false_of_matchesIds (vid pid page : Nat) (d : DeviceInfo)
    (h : matchesIds vid pid d = false) : matchesFull vid pid page d = false := by
  unfold matchesIds at h
  unfold matchesFull
  simp only [Bool.and_eq_false_iff] at h ⊢
  exact Or.inl h

/-- When no candidate matches even vendor/product, both scans come up
empty. -/
theorem findDevice_eq_none (devs : List DeviceInfo) (vid pid page : Nat)
    (h : ∀ d ∈ devs, matchesIds vid pid d = false) :
    findDevice devs vid pid page = none := by
  have h3 : devs.find? (matchesFull vid pid page) = none := by
    rw [List.find?_eq_none]
    intro d hd
    simp [matchesFull_eq_false_of_matchesIds vid pid page d (h d hd)]
  have h2 : devs.find? (matchesIds vid pid) = none := by
    rw [List.find?_eq_none]
    intro d hd
    simp [h d hd]
  simp [findDevice, h3, h2]

/-- When the full scan finds a candidate, `findDevice` returns it (the
fallback scan is never consulted). -/
theorem findDevice_eq_of_full (devs : List DeviceInfo) (vid pid page : Nat) (d : DeviceInfo)
    (h : devs.find? (matchesFull vid pid page) = some d) :
    findDevice devs vid pid page = some d := by
  simp [findDevice, h]

/-- When no candidate matches the full predicate, `findDevice` is exactly
the fallback scan. -/
theorem findDevice_fallback (devs : List DeviceInfo) (vid pid page : Nat)
    (h : ∀ d ∈ devs, matchesFull vid pid page d = false) :
    findDevice devs vid pid page = devs.find? (matchesIds vid pid) := by
  have h3 : devs.find? (matchesFull vid pid page) = none := by
    rw [List.find?_eq_none]
    intro d hd
    simp [h d hd]
  simp [findDevice, h3]

/-! ## Retry-loop step lemmas -/

theorem openGo_notFound (api : Api) (vid pid page R delay f a : Nat) (le : Option Nat)
    (hfind : findDevice (api.device_list a) vid pid page = none) :
    openGo api vid pid page R delay (f + 1) a le = (.deviceNotFound, [.enumerate]) := by
  rw [openGo, hfind]

theorem openGo_okStep (api : Api) (vid pid page R delay f a : Nat) (le : Option Nat)
    (d : DeviceInfo)
    (hfind : findDevice (api.device_list a) vid pid page = some d)
    (hopen : api.open_result a d.path = none) :
    openGo api vid pid page R delay (f + 1) a le =
      (.ok ⟨d.path⟩, [.enumerate, .openAttempt d.path]) := by
  rw [openGo, hfind]
  simp only [hopen]

theorem openGo_failStep_lt (api : Api) (vid pid page R delay f a : Nat) (le : Option Nat)
    (d : DeviceInfo) (e : Nat)
    (hfind : findDevice (api.device_list a) vid pid page = some d)
    (hopen : api.open_result a d.path = some e)
    (hlt : a < R) :
    openGo api vid pid page R delay (f + 1) a le =
      ((openGo api vid pid page R delay f (a + 1) (some e)).1,
        .enumerate :: .openAttempt d.path :: .sleep delay ::
          (openGo api vid pid page R delay f (a + 1) (some e)).2) := by
  rw [openGo, hfind]
  simp only [hopen, if_pos hlt]

theorem openGo_failStep_ge (api : Api) (vid pid page R delay f a : Nat) (le : Option Nat)
    (d : DeviceInfo) (e : Nat)
    (hfind : findDevice (api.device_list a) vid pid page = some d)
    (hopen : api.open_result a d.path = some e)
    (hge : ¬ a < R) :
    openGo api vid pid page R delay (f + 1) a le =
      ((openGo api vid pid page R delay f (a + 1) (some e)).1,
        .enumerate :: .openAttempt d.path ::
          (openGo api vid pid page R delay f (a + 1) (some e)).2) := by
  rw [openGo, hfind]
  simp only [hopen, if_neg hge]

/-- Claim C2: the transmitted output buffer is always exactly
`HID_REPORT_SIZE = 64` bytes; a payload of at most 64 bytes is
transmitted left-aligned and zero-padded to 64, a longer payload is
truncated to its first 64 bytes. -/
theorem claim2_output_report (bytes : List Nat) :
    (build_output_report bytes).length = HID_REPORT_SIZE ∧
    (bytes.length ≤ HID_REPORT_SIZE →
      build_output_report bytes = bytes ++ List.replicate (HID_REPORT_SIZE - bytes.length) 0) ∧
    (HID_REPORT_SIZE < bytes.length →
      build_output_report bytes = bytes.take HID_REPORT_SIZE) := by
  refine ⟨?_, ?_, ?_⟩
  · simp [build_output_report]
  · intro h
    have hmin : min bytes.length HID_REPORT_SIZE = bytes.length := Nat.min_eq_left h
    simp [build_output_report, hmin]
  · intro h
    have hmin : min bytes.length HID_REPORT_SIZE = HID_REPORT_SIZE :=
      Nat.min_eq_right (Nat.le_of_lt h)
    simp [build_output_report, hmin]

theorem claim2_witness :
    build_output_report [1, 2, 3] = [1, 2, 3] ++ List.replicate 61 0 ∧
    build_output_report (List.replicate 70 5) = (List.replicate 70 5).take 64 :=
  ⟨(claim2_output_report [1, 2, 3]).2.1 (by decide),
   (claim2_output_report (List.replicate 70 5)).2.2 (by decide)⟩

/-- Claim C3: when the first enumeration yields no candidate matching
`vid`/`pid`, `open_device_with_retry` fails with `DeviceNotFound` at
once: no open attempt and no retry sleep occur. -/
theorem claim3_not_found_immediate (api : Api) (vid pid page R delay : Nat)
    (h : ∀ d ∈ api.device_list 0, matchesIds vid pid d = false) :
    ∃ tr, open_device_with_retry api vid pid page R delay = (.deviceNotFound, tr) ∧
      countOpen tr = 0 ∧ countSleep tr = 0 := by
  refine ⟨[.enumerate], ?_, rfl, rfl⟩
  unfold open_device_with_retry
  exact openGo_notFound api vid pid page R delay R 0 none (findDevice_eq_none _ _ _ _ h)

def apiC3 : Api := { device_list := fun _ => [], open_result := fun _ _ => some 5 }

theorem claim3_witness :
    ∃ tr, open_device_with_retry apiC3 1 2 VENDOR_PAGE 3 100 = (.deviceNotFound, tr) ∧
      countOpen tr = 0 ∧ countSleep tr = 0 :=
  claim3_not_found_immediate apiC3 1 2 VENDOR_PAGE 3 100
    (fun d hd => absurd hd (List.not_mem_nil d))

/-- Claim C4: candidate selection returns the first candidate matching
vendor, product and the preferred usage page; the fallback scan (vendor
and product alone) is consulted only when the full scan yields nothing;
and a vendor/product-only candidate is then opened as fallback rather
than causing a failure. -/
theorem claim4_selection_priority (devs : List DeviceInfo) (vid pid page : Nat)
    (api : Api) (R delay : Nat) (d0 dF : DeviceInfo) :
    (devs.find? (matchesFull vid pid page) = some d0 →
      findDevice devs vid pid page = some d0) ∧
    ((∀ x ∈ devs, matchesFull vid pid page x = false) →
      findDevice devs vid pid page = devs.find? (matchesIds vid pid)) ∧
    ((∀ x ∈ api.device_list 0, matchesFull vid pid page x = false) →
      (api.device_list 0).find? (matchesIds vid pid) = some dF →
      api.open_result 0 dF.path = none →
      open_device_with_retry api vid pid page R delay =
        (.ok ⟨dF.path⟩, [.enumerate, .openAttempt dF.path])) := by
  refine ⟨findDevice_eq_of_full devs vid pid page d0, findDevice_fallback devs vid pid page, ?_⟩
  intro hfull hfb hopen
  have hfind : findDevice (api.device_list 0) vid pid page = some dF :=
    (findDevice_fallback _ vid pid page hfull).trans hfb
  unfold open_device_with_retry
  exact openGo_okStep api vid pid page R delay R 0 none dF hfind hopen

def apiC4 : Api :=
  { device_list := fun _ => [⟨9, 9, 9, 1⟩, ⟨1, 2, 5, 7⟩, ⟨1, 2, 5, 8⟩],
    open_result := fun _ _ => none }

theorem claim4_witness :
    findDevice [⟨9, 9, 9, 1⟩, ⟨1, 2, 5, 7⟩, ⟨1, 2, 5, 8⟩] 1 2 VENDOR_PAGE =
      [⟨9, 9, 9, 1⟩, ⟨1, 2, 5, 7⟩, ⟨1, 2, 5, 8⟩].find? (matchesIds 1 2) ∧
    open_device_with_retry apiC4 1 2 VENDOR_PAGE 3 100 =
      (.ok ⟨7⟩, [.enumerate, .openAttempt 7]) :=
  ⟨(claim4_selection_priority [⟨9, 9, 9, 1⟩, ⟨1, 2, 5, 7⟩, ⟨1, 2, 5, 8⟩] 1 2 VENDOR_PAGE
      apiC4 3 100 ⟨0, 0, 0, 0⟩ ⟨1, 2, 5, 7⟩).2.1 (by decide),
   (claim4_selection_priority [⟨9, 9, 9, 1⟩, ⟨1, 2, 5, 7⟩, ⟨1, 2, 5, 8⟩] 1 2 VENDOR_PAGE
      apiC4 3 100 ⟨0, 0, 0, 0⟩ ⟨1, 2, 5, 7⟩).2.2 (by decide) (by decide) (by decide)⟩

/-- When every attempt up to `R` finds a candidate whose open fails, the
loop runs out of attempts and reports the last error, one open per
remaining iteration. -/
theorem openGo_allFail (api : Api) (vid pid page R delay : Nat)
    (H : ∀ i, i ≤ R → ∃ d e, findDevice (api.device_list i) vid pid page = some d ∧
      api.open_result i d.path = some e) :
    ∀ n a le, a + n = R →
      ∃ d e tr, findDevice (api.device_list R) vid pid page = some d ∧
        api.open_result R d.path = some e ∧
        openGo api vid pid page R delay (n + 1) a le = (.openFailed e, tr) ∧
        countOpen tr = n + 1 := by
  intro n
  induction n with
  | zero =>
    intro a le ha
    have haR : a = R := by omega
    subst haR
    obtain ⟨d, e, hfind, hopen⟩ := H a (Nat.le_refl a)
    refine ⟨d, e, [.enumerate, .openAttempt d.path], hfind, hopen, ?_, rfl⟩
    rw [openGo_failStep_ge api vid pid page a delay 0 a le d e hfind hopen (lt_irrefl a)]
    rfl
  | succ n ih =>
    intro a le ha
    obtain ⟨d, e, hfind, hopen⟩ := H a (by omega)
    have hlt : a < R := by omega
    obtain ⟨d', e', tr', hfind', hopen', heq, hcount⟩ := ih (a + 1) (some e) (by omega)
    refine ⟨d', e', .enumerate :: .openAttempt d.path :: .sleep delay :: tr',
      hfind', hopen', ?_, ?_⟩
    · rw [openGo_failStep_lt api vid pid page R delay (n + 1) a le d e hfind hopen hlt, heq]
    · have h1 : countOpen (.enumerate :: .openAttempt d.path :: .sleep delay :: tr') =
          countOpen tr' + 1 := by
        simp [countOpen_cons, Event.isOpenAttempt]
      omega

/-- Claim C1: with `max_retries = R`, when every open attempt fails while
enumeration keeps finding a matching candidate, `open_device_with_retry`
performs exactly `R + 1` open attempts and returns `OpenFailed` carrying
the error of the last (the `R`-th) attempt. -/
theorem claim1_exhausted_retries (api : Api) (vid pid page R delay : Nat)
    (H : ∀ i, i ≤ R → ∃ d e, findDevice (api.device_list i) vid pid page = some d ∧
      api.open_result i d.path = some e) :
    ∃ d e tr, findDevice (api.device_list R) vid pid page = some d ∧
      api.open_result R d.path = some e ∧
      open_device_with_retry api vid pid page R delay = (.openFailed e, tr) ∧
      countOpen tr = R + 1 := by
  unfold open_device_with_retry
  exact openGo_allFail api vid pid page R delay H R 0 none (by omega)

def apiC1 : Api :=
  { device_list := fun _ => [⟨1, 2, 0xFF42, 7⟩], open_result := fun _ _ => some 5 }

theorem claim1_witness :
    ∃ d e tr, findDevice (apiC1.device_list 2) 1 2 VENDOR_PAGE = some d ∧
      apiC1.open_result 2 d.path = some e ∧
      open_device_with_retry apiC1 1 2 VENDOR_PAGE 2 10 = (.openFailed e, tr) ∧
      countOpen tr = 3 :=
  claim1_exhausted_retries apiC1 1 2 VENDOR_PAGE 2 10
    (fun _ _ => ⟨⟨1, 2, 0xFF42, 7⟩, 5, rfl, rfl⟩)

/-- When the first `k` attempts fail on a found candidate and attempt
`a + k` opens its candidate successfully, the loop returns that session
after exactly `k` sleeps of the configured delay. -/
theorem openGo_failThenOk (api : Api) (vid pid page R delay : Nat) :
    ∀ k a le f, a + k ≤ R → k < f →
      (∀ i, i < k → ∃ d e, findDevice (api.device_list (a + i)) vid pid page = some d ∧
        api.open_result (a + i) d.path = some e) →
      ∀ d, findDevice (api.device_list (a + k)) vid pid page = some d →
        api.open_result (a + k) d.path = none →
        ∃ tr, openGo api vid pid page R delay f a le = (.ok ⟨d.path⟩, tr) ∧
          countSleep tr = k ∧ countSleepMs delay tr = k := by
  intro k
  induction k with
  | zero =>
    intro a le f _ hf _ d hfind hopen
    obtain ⟨f', rfl⟩ : ∃ f', f = f' + 1 := ⟨f - 1, by omega⟩
    rw [Nat.add_zero] at hfind hopen
    exact ⟨[.enumerate, .openAttempt d.path],
      openGo_okStep api vid pid page R delay f' a le d hfind hopen, rfl, rfl⟩
  | succ k ih =>
    intro a le f haR hf hfails d hfind hopen
    obtain ⟨f', rfl⟩ : ∃ f', f = f' + 1 := ⟨f - 1, by omega⟩
    obtain ⟨d0, e0, hfind0, hopen0⟩ := hfails 0 (Nat.succ_pos k)
    rw [Nat.add_zero] at hfind0 hopen0
    have hlt : a < R := by omega
    have hfails' : ∀ i, i < k →
        ∃ d' e', findDevice (api.device_list (a + 1 + i)) vid pid page = some d' ∧
          api.open_result (a + 1 + i) d'.path = some e' := by
      intro i hi
      have h := hfails (i + 1) (by omega)
      rwa [show a + (i + 1) = a + 1 + i by omega] at h
    have hfind1 : findDevice (api.device_list (a + 1 + k)) vid pid page = some d := by
      rwa [show a + 1 + k = a + (k + 1) by omega]
    have hopen1 : api.open_result (a + 1 + k) d.path = none := by
      rwa [show a + 1 + k = a + (k + 1) by omega]
    obtain ⟨tr', heq, hs, hsm⟩ :=
      ih (a + 1) (some e0) f' (by omega) (by omega) hfails' d hfind1 hopen1
    refine ⟨.enumerate :: .openAttempt d0.path :: .sleep delay :: tr', ?_, ?_, ?_⟩
    · rw [openGo_failStep_lt api vid pid page R delay f' a le d0 e0 hfind0 hopen0 hlt, heq]
    · have h1 : countSleep (.enumerate :: .openAttempt d0.path :: .sleep delay :: tr') =
          countSleep tr' + 1 := by
        simp [countSleep_cons, Event.isSleep]
      omega
    · have h1 : countSleepMs delay (.enumerate :: .openAttempt d0.path :: .sleep delay :: tr') =
          countSleepMs delay tr' + 1 := by
        simp [countSleepMs_cons, Event.isSleepMs]
      omega

/-- Claim C8: when the open fails on the first `N` attempts (each on a
found candidate) and succeeds on attempt `N`, with `max_retries ≥ N`, the
acquisition returns the session of the candidate found at attempt `N`
after exactly `N` retry sleeps, each of `retry_delay` milliseconds. -/
theorem claim8_success_after_n_failures (api : Api) (vid pid page N R delay : Nat)
    (d : DeviceInfo)
    (hNR : N ≤ R)
    (hfail : ∀ i, i < N → ∃ d' e, findDevice (api.device_list i) vid pid page = some d' ∧
      api.open_result i d'.path = some e)
    (hfind : findDevice (api.device_list N) vid pid page = some d)
    (hopen : api.open_result N d.path = none) :
    ∃ tr, open_device_with_retry api vid pid page R delay = (.ok ⟨d.path⟩, tr) ∧
      countSleep tr = N ∧ countSleepMs delay tr = N := by
  unfold open_device_with_retry
  exact openGo_failThenOk api vid pid page R delay N 0 none (R + 1) (by omega) (by omega)
    (fun i hi => by simpa using hfail i hi) d (by simpa using hfind) (by simpa using hopen)

def apiC8 : Api :=
  { device_list := fun _ => [⟨1, 2, 0xFF42, 7⟩],
    open_result := fun i _ => if i = 0 then some 7 else none }

theorem claim8_witness :
    ∃ tr, open_device_with_retry apiC8 1 2 VENDOR_PAGE 3 100 = (.ok ⟨7⟩, tr) ∧
      countSleep tr = 1 ∧ countSleepMs 100 tr = 1 :=
  claim8_success_after_n_failures apiC8 1 2 VENDOR_PAGE 1 3 100 ⟨1, 2, 0xFF42, 7⟩
    (by decide)
    (fun i hi => by
      have h0 : i = 0 := Nat.lt_one_iff.mp hi
      subst h0
      exact ⟨⟨1, 2, 0xFF42, 7⟩, 7, rfl, rfl⟩)
    rfl rfl

/-- When the first `k` attempts fail on a found candidate and enumeration
at attempt `a + k` no longer yields any vendor/product match, the loop
returns `deviceNotFound` right away: `k` opens, `k` sleeps, and no
further open attempt. -/
theorem openGo_failThenNotFound (api : Api) (vid pid page R delay : Nat) :
    ∀ k a le f, a + k ≤ R → k < f →
      (∀ i, i < k → ∃ d e, findDevice (api.device_list (a + i)) vid pid page = some d ∧
        api.open_result (a + i) d.path = some e) →
      (∀ d ∈ api.device_list (a + k), matchesIds vid pid d = false) →
      ∃ tr, openGo api vid pid page R delay f a le = (.deviceNotFound, tr) ∧
        countOpen tr = k ∧ countSleep tr = k := by
  intro k
  induction k with
  | zero =>
    intro a le f _ hf _ hnone
    obtain ⟨f', rfl⟩ : ∃ f', f = f' + 1 := ⟨f - 1, by omega⟩
    rw [Nat.add_zero] at hnone
    exact ⟨[.enumerate],
      openGo_notFound api vid pid page R delay f' a le (findDevice_eq_none _ _ _ _ hnone),
      rfl, rfl⟩
  | succ k ih =>
    intro a le f haR hf hfails hnone
    obtain ⟨f', rfl⟩ : ∃ f', f = f' + 1 := ⟨f - 1, by omega⟩
    obtain ⟨d0, e0, hfind0, hopen0⟩ := hfails 0 (Nat.succ_pos k)
    rw [Nat.add_zero] at hfind0 hopen0
    have hlt : a < R := by omega
    have hfails' : ∀ i, i < k →
        ∃ d' e', findDevice (api.device_list (a + 1 + i)) vid pid page = some d' ∧
          api.open_result (a + 1 + i) d'.path = some e' := by
      intro i hi
      have h := hfails (i + 1) (by omega)
      rwa [show a + (i + 1) = a + 1 + i by omega] at h
    have hnone1 : ∀ d ∈ api.device_list (a + 1 + k), matchesIds vid pid d = false := by
      rwa [show a + 1 + k = a + (k + 1) by omega]
    obtain ⟨tr', heq, hc, hs⟩ := ih (a + 1) (some e0) f' (by omega) (by omega) hfails' hnone1
    refine ⟨.enumerate :: .openAttempt d0.path :: .sleep delay :: tr', ?_, ?_, ?_⟩
    · rw [openGo_failStep_lt api vid pid page R delay f' a le d0 e0 hfind0 hopen0 hlt, heq]
    · have h1 : countOpen (.enumerate :: .openAttempt d0.path :: .sleep delay :: tr') =
          countOpen tr' + 1 := by
        simp [countOpen_cons, Event.isOpenAttempt]
      omega
    · have h1 : countSleep (.enumerate :: .openAttempt d0.path :: .sleep delay :: tr') =
          countSleep tr' + 1 := by
        simp [countSleep_cons, Event.isSleep]
      omega

/-- Claim C10: when attempts `0 .. k-1` fail on found candidates but the
enumeration of attempt `k ≤ max_retries` yields no vendor/product match,
the acquisition returns `DeviceNotFound` immediately — the recorded last
open error is discarded, no `OpenFailed` is produced, and no open attempt
is made at the `k`-th iteration. -/
theorem claim10_not_found_discards_error (api : Api) (vid pid page k R delay : Nat)
    (hkR : k ≤ R)
    (hfail : ∀ i, i < k → ∃ d e, findDevice (api.device_list i) vid pid page = some d ∧
      api.open_result i d.path = some e)
    (hnone : ∀ d ∈ api.device_list k, matchesIds vid pid d = false) :
    ∃ tr, open_device_with_retry api vid pid page R delay = (.deviceNotFound, tr) ∧
      countOpen tr = k ∧ countSleep tr = k := by
  unfold open_device_with_retry
  exact openGo_failThenNotFound api vid pid page R delay k 0 none (R + 1) (by omega) (by omega)
    (fun i hi => by simpa using hfail i hi) (by simpa using hnone)

def apiC10 : Api :=
  { device_list := fun i => if i = 0 then [⟨1, 2, 5, 7⟩] else [],
    open_result := fun _ _ => some 9 }

theorem claim10_witness :
    ∃ tr, open_device_with_retry apiC10 1 2 VENDOR_PAGE 2 100 = (.deviceNotFound, tr) ∧
      countOpen tr = 1 ∧ countSleep tr = 1 :=
  claim10_not_found_discards_error apiC10 1 2 VENDOR_PAGE 1 2 100 (by decide)
    (fun i hi => by
      have h0 : i = 0 := Nat.lt_one_iff.mp hi
      subst h0
      exact ⟨⟨1, 2, 5, 7⟩, 9, by decide, rfl⟩)
    (by intro d hd; simp [apiC10] at hd)

theorem noTrailingSleep_cons_cons (x y : Event) (l : List Event) :
    noTrailingSleep (x :: y :: l) = noTrailingSleep (y :: l) := rfl

/-- The number of sleeps performed from attempt `a` on is bounded by the
number of attempts whose index is below `max_retries`. -/
theorem openGo_sleep_le (api : Api) (vid pid page R delay : Nat) :
    ∀ f a le, countSleep (openGo api vid pid page R delay f a le).2 ≤ R - a := by
  intro f
  induction f with
  | zero => intro a le; exact Nat.zero_le _
  | succ f ih =>
    intro a le
    cases hfind : findDevice (api.device_list a) vid pid page with
    | none =>
      rw [openGo_notFound api vid pid page R delay f a le hfind]
      exact Nat.zero_le _
    | some d =>
      cases hopen : api.open_result a d.path with
      | none =>
        rw [openGo_okStep api vid pid page R delay f a le d hfind hopen]
        exact Nat.zero_le _
      | some e =>
        by_cases hlt : a < R
        · rw [openGo_failStep_lt api vid pid page R delay f a le d e hfind hopen hlt]
          have h1 : countSleep (.enumerate :: .openAttempt d.path :: .sleep delay ::
              (openGo api vid pid page R delay f (a + 1) (some e)).2) =
              countSleep (openGo api vid pid page R delay f (a + 1) (some e)).2 + 1 := by
            simp [countSleep_cons, Event.isSleep]
          have h2 := ih (a + 1) (some e)
          dsimp only
          omega
        · rw [openGo_failStep_ge api vid pid page R delay f a le d e hfind hopen hlt]
          have h1 : countSleep (.enumerate :: .openAttempt d.path ::
              (openGo api vid pid page R delay f (a + 1) (some e)).2) =
              countSleep (openGo api vid pid page R delay f (a + 1) (some e)).2 := by
            simp [countSleep_cons, Event.isSleep]
          have h2 := ih (a + 1) (some e)
          dsimp only
          omega

/-- With the loop's fuel/attempt invariant, every non-empty trace starts
with an enumeration and no trace ends in a sleep. -/
theorem openGo_shape (api : Api) (vid pid page R delay : Nat) :
    ∀ f a le, a + f = R + 1 →
      (0 < f → ∃ tl, (openGo api vid pid page R delay f a le).2 = Event.enumerate :: tl) ∧
      noTrailingSleep (openGo api vid pid page R delay f a le).2 = true := by
  intro f
  induction f with
  | zero =>
    intro a le _
    exact ⟨fun h => absurd h (Nat.lt_irrefl 0), rfl⟩
  | succ f ih =>
    intro a le hinv
    cases hfind : findDevice (api.device_list a) vid pid page with
    | none =>
      rw [openGo_notFound api vid pid page R delay f a le hfind]
      exact ⟨fun _ => ⟨[], rfl⟩, rfl⟩
    | some d =>
      cases hopen : api.open_result a d.path with
      | none =>
        rw [openGo_okStep api vid pid page R delay f a le d hfind hopen]
        exact ⟨fun _ => ⟨[.openAttempt d.path], rfl⟩, rfl⟩
      | some e =>
        by_cases hlt : a < R
        · rw [openGo_failStep_lt api vid pid page R delay f a le d e hfind hopen hlt]
          have hf : 0 < f := by omega
          obtain ⟨hhead, htail⟩ := ih (a + 1) (some e) (by omega)
          obtain ⟨tl, htl⟩ := hhead hf
          constructor
          · exact fun _ => ⟨_, rfl⟩
          · dsimp only
            rw [htl, noTrailingSleep_cons_cons, noTrailingSleep_cons_cons,
              noTrailingSleep_cons_cons, ← htl]
            exact htail
        · rw [openGo_failStep_ge api vid pid page R delay f a le d e hfind hopen hlt]
          have hf0 : f = 0 := by omega
          subst hf0
          exact ⟨fun _ => ⟨[.openAttempt d.path], rfl⟩, rfl⟩

/-- Claim C9: the retry-delay sleep happens only between attempts
(attempt index strictly below `max_retries`), so at most `max_retries`
sleeps occur and no return of `open_device_with_retry` — in particular no
error return — has a trailing delay. -/
theorem claim9_sleep_only_between_attempts (api : Api) (vid pid page R delay : Nat) :
    noTrailingSleep (open_device_with_retry api vid pid page R delay).2 = true ∧
    countSleep (open_device_with_retry api vid pid page R delay).2 ≤ R := by
  unfold open_device_with_retry
  constructor
  · exact (openGo_shape api vid pid page R delay (R + 1) 0 none (by omega)).2
  · have h := openGo_sleep_le api vid pid page R delay (R + 1) 0 none
    simpa using h

/-- Reads from index `s`: the first `n` reads succeed and read `s + n`
fails, so the loop (given fuel for them) emits exactly `n` reports, makes
`n + 1` read calls and stops at the single read error. -/
theorem read_loop_spec (reads : Nat → Except Nat Nat) (e : Nat) :
    ∀ n s f, (∀ i, i < n → ∃ len, reads (s + i) = .ok len) → reads (s + n) = .error e →
      n < f →
      ∃ tr, read_input_reports reads f s = some tr ∧
        countRecv tr = n ∧ countRead tr = n + 1 ∧ countReadErr tr = 1 := by
  intro n
  induction n with
  | zero =>
    intro s f _ herr hf
    obtain ⟨f', rfl⟩ : ∃ f', f = f' + 1 := ⟨f - 1, by omega⟩
    rw [Nat.add_zero] at herr
    refine ⟨[.readCall, .readErr e], ?_, rfl, rfl, rfl⟩
    rw [read_input_reports, herr]
  | succ n ih =>
    intro s f hok herr hf
    obtain ⟨f', rfl⟩ : ∃ f', f = f' + 1 := ⟨f - 1, by omega⟩
    obtain ⟨len0, hr0⟩ := hok 0 (Nat.succ_pos n)
    rw [Nat.add_zero] at hr0
    have hok' : ∀ i, i < n → ∃ len, reads (s + 1 + i) = .ok len := by
      intro i hi
      have h := hok (i + 1) (by omega)
      rwa [show s + (i + 1) = s + 1 + i by omega] at h
    have herr' : reads (s + 1 + n) = .error e := by
      rwa [show s + 1 + n = s + (n + 1) by omega]
    obtain ⟨tr', heq, hrecv, hread, herrc⟩ := ih (s + 1) f' hok' herr' (by omega)
    refine ⟨.readCall :: .recv len0 :: tr', ?_, ?_, ?_, ?_⟩
    · rw [read_input_reports, hr0, heq]
      rfl
    · have h1 : countRecv (.readCall :: .recv len0 :: tr') = countRecv tr' + 1 := by
        simp [countRecv_cons, Event.isRecv]
      omega
    · have h1 : countRead (.readCall :: .recv len0 :: tr') = countRead tr' + 1 := by
        simp [countRead_cons, Event.isReadCall]
      omega
    · have h1 : countReadErr (.readCall :: .recv len0 :: tr') = countReadErr tr' := by
        simp [countReadErr_cons, Event.isReadErr]
      omega

/-- Claim C5: in continuous mode, when the first `n` reads succeed and
the `n`-th read fails, the read loop emits exactly `n` received reports,
performs exactly `n + 1` read calls (none after the failing one, whatever
fuel remains) and terminates on that single read error. -/
theorem claim5_loop_exits_on_read_error (reads : Nat → Except Nat Nat) (n e f : Nat)
    (hok : ∀ i, i < n → ∃ len, reads i = .ok len)
    (herr : reads n = .error e)
    (hf : n < f) :
    ∃ tr, read_input_reports reads f 0 = some tr ∧
      countRecv tr = n ∧ countRead tr = n + 1 ∧ countReadErr tr = 1 :=
  read_loop_spec reads e n 0 f (fun i hi => by simpa using hok i hi) (by simpa using herr) hf

def readsC5 : Nat → Except Nat Nat := fun i => if i < 2 then .ok 64 else .error 3

theorem claim5_witness :
    ∃ tr, read_input_reports readsC5 5 0 = some tr ∧
      countRecv tr = 2 ∧ countRead tr = 3 ∧ countReadErr tr = 1 :=
  claim5_loop_exits_on_read_error readsC5 2 3 5
    (fun i hi => ⟨64, by simp only [readsC5]; rw [if_pos hi]⟩)
    rfl (by decide)

/-- The acquisition loop performs no write and no read: its trace is
made of enumerations, open attempts and sleeps only. -/
theorem openGo_trace_pure (api : Api) (vid pid page R delay : Nat) :
    ∀ f a le, countWrite (openGo api vid pid page R delay f a le).2 = 0 ∧
      countRead (openGo api vid pid page R delay f a le).2 = 0 := by
  intro f
  induction f with
  | zero => intro a le; exact ⟨rfl, rfl⟩
  | succ f ih =>
    intro a le
    cases hfind : findDevice (api.device_list a) vid pid page with
    | none =>
      rw [openGo_notFound api vid pid page R delay f a le hfind]
      exact ⟨rfl, rfl⟩
    | some d =>
      cases hopen : api.open_result a d.path with
      | none =>
        rw [openGo_okStep api vid pid page R delay f a le d hfind hopen]
        exact ⟨rfl, rfl⟩
      | some e =>
        have hw := (ih (a + 1) (some e)).1
        have hr := (ih (a + 1) (some e)).2
        by_cases hlt : a < R
        · rw [openGo_failStep_lt api vid pid page R delay f a le d e hfind hopen hlt]
          constructor
          · have h1 : countWrite (.enumerate :: .openAttempt d.path :: .sleep delay ::
                (openGo api vid pid page R delay f (a + 1) (some e)).2) =
                countWrite (openGo api vid pid page R delay f (a + 1) (some e)).2 := by
              simp [countWrite_cons, Event.isWriteCall]
            dsimp only
            omega
          · have h1 : countRead (.enumerate :: .openAttempt d.path :: .sleep delay ::
                (openGo api vid pid page R delay f (a + 1) (some e)).2) =
                countRead (openGo api vid pid page R delay f (a + 1) (some e)).2 := by
              simp [countRead_cons, Event.isReadCall]
            dsimp only
            omega
        · rw [openGo_failStep_ge api vid pid page R delay f a le d e hfind hopen hlt]
          constructor
          · have h1 : countWrite (.enumerate :: .openAttempt d.path ::
                (openGo api vid pid page R delay f (a + 1) (some e)).2) =
                countWrite (openGo api vid pid page R delay f (a + 1) (some e)).2 := by
              simp [countWrite_cons, Event.isWriteCall]
            dsimp only
            omega
          · have h1 : countRead (.enumerate :: .openAttempt d.path ::
                (openGo api vid pid page R delay f (a + 1) (some e)).2) =
                countRead (openGo api vid pid page R delay f (a + 1) (some e)).2 := by
              simp [countRead_cons, Event.isReadCall]
            dsimp only
            omega

/-- A terminated read loop's trace starts with its first read call. -/
theorem read_input_reports_shape (reads : Nat → Except Nat Nat) (f i : Nat) (tr : List Event)
    (h : read_input_reports reads f i = some tr) :
    ∃ tl, tr = Event.readCall :: tl := by
  cases f with
  | zero =>
    rw [read_input_reports] at h
    exact Option.noConfusion h
  | succ f =>
    rw [read_input_reports] at h
    cases hr : reads i with
    | ok len =>
      rw [hr] at h
      obtain ⟨tr', _, htr⟩ := Option.map_eq_some'.mp h
      exact ⟨Event.recv len :: tr', htr.symm⟩
    | error e =>
      rw [hr] at h
      exact ⟨[Event.readErr e], (Option.some.inj h).symm⟩

/-- The single-read step's trace starts with its read call. -/
theorem read_single_shape (reads : Nat → Except Nat Nat) (i : Nat) :
    ∃ tl, read_single reads i = Event.readCall :: tl := by
  unfold read_single
  cases reads i with
  | ok len => exact ⟨[Event.recv len], rfl⟩
  | error e => exact ⟨[Event.readErr e], rfl⟩

/-- Claim C6: a write failure does not terminate the program.  With the
same session, payload and read behaviour, a run whose write fails
reports the error and proceeds to the very same read step (single read
or read loop) as a run whose write succeeds; both runs end normally. -/
theorem claim6_write_failure_nonfatal (api : Api) (vid pid : Nat) (s : List Char)
    (bytes : List Nat) (retries delay : Nat) (cont : Bool)
    (w1 w2 : List Nat → Except Nat Nat) (reads : Nat → Except Nat Nat) (f : Nat)
    (dv : Device) (tr1 : List Event) (n e : Nat)
    (hacq : open_device_with_retry api vid pid VENDOR_PAGE retries delay = (.ok dv, tr1))
    (hdec : hex_decode s = some bytes)
    (hw1 : w1 (build_output_report bytes) = .ok n)
    (hw2 : w2 (build_output_report bytes) = .error e)
    (hloop : cont = true → ∃ tr2, read_input_reports reads f 0 = some tr2) :
    ∃ tl,
      main_run api vid pid (some s) retries delay cont w1 reads f =
        some (.ok, tr1 ++ [Event.writeCall (build_output_report bytes), Event.writeOk n] ++
          (Event.readCall :: tl)) ∧
      main_run api vid pid (some s) retries delay cont w2 reads f =
        some (.ok, tr1 ++ [Event.writeCall (build_output_report bytes), Event.writeErr e] ++
          (Event.readCall :: tl)) := by
  have hwe1 : writeEvents w1 (build_output_report bytes) =
      [Event.writeCall (build_output_report bytes), Event.writeOk n] := by
    unfold writeEvents
    rw [hw1]
  have hwe2 : writeEvents w2 (build_output_report bytes) =
      [Event.writeCall (build_output_report bytes), Event.writeErr e] := by
    unfold writeEvents
    rw [hw2]
  cases cont with
  | true =>
    obtain ⟨tr2, htr2⟩ := hloop rfl
    obtain ⟨tl, htl⟩ := read_input_reports_shape reads f 0 tr2 htr2
    subst htl
    refine ⟨tl, ?_, ?_⟩
    · unfold main_run
      rw [hacq]
      dsimp only
      rw [hdec]
      dsimp only
      rw [htr2, hwe1]
    · unfold main_run
      rw [hacq]
      dsimp only
      rw [hdec]
      dsimp only
      rw [htr2, hwe2]
  | false =>
    obtain ⟨tl, htl⟩ := read_single_shape reads 0
    refine ⟨tl, ?_, ?_⟩
    · unfold main_run
      rw [hacq]
      dsimp only
      rw [hdec]
      dsimp only
      rw [hwe1, htl]
    · unfold main_run
      rw [hacq]
      dsimp only
      rw [hdec]
      dsimp only
      rw [hwe2, htl]

def apiC6 : Api :=
  { device_list := fun _ => [⟨1, 2, 0xFF42, 7⟩], open_result := fun _ _ => none }

theorem claim6_witness :
    ∃ tl,
      main_run apiC6 1 2 (some ['0', '0']) 3 100 false (fun _ => .ok 64) (fun _ => .ok 5) 0 =
        some (.ok, [Event.enumerate, Event.openAttempt 7] ++
          [Event.writeCall (build_output_report [0]), Event.writeOk 64] ++
          (Event.readCall :: tl)) ∧
      main_run apiC6 1 2 (some ['0', '0']) 3 100 false (fun _ => .error 9) (fun _ => .ok 5) 0 =
        some (.ok, [Event.enumerate, Event.openAttempt 7] ++
          [Event.writeCall (build_output_report [0]), Event.writeErr 9] ++
          (Event.readCall :: tl)) :=
  claim6_write_failure_nonfatal apiC6 1 2 ['0', '0'] [0] 3 100 false (fun _ => .ok 64)
    (fun _ => .error 9) (fun _ => .ok 5) 0 ⟨7⟩ [Event.enumerate, Event.openAttempt 7] 64 9
    rfl rfl rfl rfl (fun h => absurd h (by decide))

def apiC7 : Api :=
  { device_list := fun _ => [⟨1, 2, 0xFF42, 7⟩], open_result := fun _ _ => none }

def writeC7 : List Nat → Except Nat Nat := fun _ => .ok 64

def readsC7 : Nat → Except Nat Nat := fun _ => .error 1

/-- Claim C7 as stated is false on the code: for the non-hex payload
string `zz`, the run returns the payload-decode error, yet its trace
already holds an enumeration and an open attempt — the decode happens
at `src/main.rs` line 115, after `open_device_with_retry` at line 106,
so device interaction does occur before the decode failure is raised. -/
theorem claim7_counterexample :
    hex_decode ['z', 'z'] = none ∧
    main_run apiC7 1 2 (some ['z', 'z']) 3 100 false writeC7 readsC7 1 =
      some (.payloadDecodeError, [Event.enumerate, Event.openAttempt 7]) ∧
    countOpen [Event.enumerate, Event.openAttempt 7] = 1 :=
  ⟨rfl, rfl, rfl⟩

/-- Claim C7 amended: a payload string that is not valid hex makes the
run fail with `PayloadDecodeError` — fatal, and surfaced before any
write or read — but only after device acquisition: enumeration and open
have already happened, and the trace up to the failure contains no write
and no read call. -/
theorem claim7_decode_error_fatal_after_open (api : Api) (vid pid retries delay : Nat)
    (cont : Bool) (write : List Nat → Except Nat Nat) (reads : Nat → Except Nat Nat)
    (f : Nat) (s : List Char) (dv : Device) (tr1 : List Event)
    (hdec : hex_decode s = none)
    (hacq : open_device_with_retry api vid pid VENDOR_PAGE retries delay = (.ok dv, tr1)) :
    main_run api vid pid (some s) retries delay cont write reads f =
      some (.payloadDecodeError, tr1) ∧
    countWrite tr1 = 0 ∧ countRead tr1 = 0 := by
  unfold open_device_with_retry at hacq
  refine ⟨?_, ?_, ?_⟩
  · unfold main_run open_device_with_retry
    rw [hacq]
    dsimp only
    rw [hdec]
  · have h := (openGo_trace_pure api vid pid VENDOR_PAGE retries delay (retries + 1) 0 none).1
    rw [hacq] at h
    exact h
  · have h := (openGo_trace_pure api vid pid VENDOR_PAGE retries delay (retries + 1) 0 none).2
    rw [hacq] at h
    exact h

theorem claim7_amended_witness :
    main_run apiC7 1 2 (some ['q']) 3 100 true writeC7 readsC7 5 =
      some (.payloadDecodeError, [Event.enumerate, Event.openAttempt 7]) ∧
    countWrite [Event.enumerate, Event.openAttempt 7] = 0 ∧
    countRead [Event.enumerate, Event.openAttempt 7] = 0 :=
  claim7_decode_error_fatal_after_open apiC7 1 2 3 100 true writeC7 readsC7 5 ['q'] ⟨7⟩
    [Event.enumerate, Event.openAttempt 7] rfl rfl

end HidTools
